import Mathlib

set_option maxRecDepth 100000

/-!
Verification of the axon-tools proof-verification engine against its
natural-language specification.

The development shallowly embeds the Rust sources:
- src/axon-tools/src/proof.rs   (verify_proof, extract_pks, verify_trie_proof)
- src/axon-tools/src/types.rs   (data types and their RLP encodings)

Bytes are modelled as `List Nat` (each entry a byte value), machine integers as
`Nat`.  The external collaborators declared out of scope by the specification
(the blst BLS12-381 library and the cita_trie Merkle-Patricia trie library) are
modelled as explicit function parameters, so every theorem quantifies over all
possible behaviours of those libraries.  The repository modules `hash.rs` and
`error.rs` are not part of the sources and are modelled from the specification
(see the doc comments on `keccak_256` and `Error`).
-/

/-! ## RLP primitives (rlp crate, as used by types.rs) -/

/-- Minimal big-endian byte representation of a natural number, via structural
fuel recursion (`natToBE 0 = []`, matching the rlp crate's integer encoding). -/
def natToBEfuel : Nat → Nat → List Nat
  | 0, _ => []
  | fuel + 1, n => if n = 0 then [] else natToBEfuel fuel (n / 256) ++ [n % 256]

def natToBE (n : Nat) : List Nat := natToBEfuel n n

/-- RLP encoding of a byte string: a single byte below 0x80 stands for itself,
otherwise the string is length-prefixed (short or long form). -/
def rlpStr (bs : List Nat) : List Nat :=
  match bs with
  | [b] => if b < 0x80 then [b] else [0x81, b]
  | _ =>
    if bs.length ≤ 55 then (0x80 + bs.length) :: bs
    else (0xb7 + (natToBE bs.length).length) :: (natToBE bs.length ++ bs)

/-- RLP list header prepended to an already-encoded payload. -/
def rlpListPayload (payload : List Nat) : List Nat :=
  if payload.length ≤ 55 then (0xc0 + payload.length) :: payload
  else (0xf7 + (natToBE payload.length).length) :: (natToBE payload.length ++ payload)

/-- RLP encoding of an unsigned integer: minimal big-endian bytes as a string. -/
def rlpNat (n : Nat) : List Nat := rlpStr (natToBE n)

/-- RLP encoding of a homogeneous list (RlpStream::append_list): list header
over the concatenation of the item encodings. -/
def rlpSeq (f : α → List Nat) (l : List α) : List Nat :=
  rlpListPayload (l.map f).flatten

/-- One RlpStream append step: the stream accumulates the encoded items. -/
def streamAppend (s : List (List Nat)) (item : List Nat) : List (List Nat) :=
  s ++ [item]

/-- Finish an RlpStream list: header over the concatenated items. -/
def streamOut (s : List (List Nat)) : List Nat :=
  rlpListPayload s.flatten

/-! ## Digest -/

/-- Modelled from the spec: the repository's hash module (`keccak_256`, lib.rs
line 18) is not among the given sources; the specification fixes only "a
cryptographic hash with fixed 32-byte output" applied to the canonical encoding
bytes (section 4.2).  Modelled as a deterministic digest with 32-byte output. -/
def keccak_256 (data : List Nat) : List Nat :=
  let acc := data.foldl
    (fun h b => (h * 340282366920938463463374607431768211507 + b + 1) % 2 ^ 256) 1
  (List.range 32).map (fun i => acc / 256 ^ (31 - i) % 256)

/-! ## Data types (types.rs) -/

/-- types.rs: BlockVersion (only variant V0). -/
inductive BlockVersion
  | V0
deriving DecidableEq, Inhabited

/-- types.rs: Proof { number, round, block_hash, signature, bitmap }. -/
structure Proof where
  number : Nat
  round : Nat
  block_hash : List Nat
  signature : List Nat
  bitmap : List Nat
deriving DecidableEq, Inhabited

/-- types.rs: ExtraData { inner: Bytes }. -/
structure ExtraData where
  inner : List Nat
deriving DecidableEq, Inhabited

/-- types.rs: AxonHeader. -/
structure AxonHeader where
  version : BlockVersion
  prev_hash : List Nat
  proposer : List Nat
  state_root : List Nat
  transactions_root : List Nat
  signed_txs_hash : List Nat
  receipts_root : List Nat
  log_bloom : List Nat
  timestamp : Nat
  number : Nat
  gas_used : Nat
  gas_limit : Nat
  extra_data : List ExtraData
  base_fee_per_gas : Nat
  proof : Proof
  call_system_script_count : Nat
  chain_id : Nat
deriving DecidableEq, Inhabited

/-- types.rs: AxonBlock { header, tx_hashes }. -/
structure AxonBlock where
  header : AxonHeader
  tx_hashes : List (List Nat)
deriving DecidableEq, Inhabited

/-- types.rs: Proposal (the ephemeral record hashed by verify_proof). -/
structure Proposal where
  version : BlockVersion
  prev_hash : List Nat
  proposer : List Nat
  prev_state_root : List Nat
  transactions_root : List Nat
  signed_txs_hash : List Nat
  timestamp : Nat
  number : Nat
  gas_limit : Nat
  extra_data : List ExtraData
  base_fee_per_gas : Nat
  proof : Proof
  chain_id : Nat
  call_system_script_count : Nat
  tx_hashes : List (List Nat)
deriving DecidableEq, Inhabited

/-- types.rs: Validator { pub_key, propose_weight, vote_weight }. -/
structure Validator where
  pub_key : List Nat
  propose_weight : Nat
  vote_weight : Nat
deriving DecidableEq, Inhabited

/-- types.rs: Vote { height, round, vote_type, block_hash }. -/
structure Vote where
  height : Nat
  round : Nat
  vote_type : Nat
  block_hash : List Nat
deriving DecidableEq, Inhabited

/-- Modelled from the spec: the repository's error module (error.rs, lib.rs
line 16) is not among the given sources; the error kinds are those of
specification section 7, with the variant names used directly by proof.rs
(Error::InvalidProofBlockHash, Error::NotEnoughSignatures). -/
inductive Error
  | InvalidProofBlockHash
  | NotEnoughSignatures
  | InvalidPublicKey
  | InvalidSignature
  | TrieProofError
deriving DecidableEq, Inhabited

/-! ## Encoders (Encodable impls of types.rs) -/

/-- types.rs lines 197-202: BlockVersion encodes as a one-element list holding
the version byte. -/
def rlpVersion (v : BlockVersion) : List Nat :=
  match v with
  | .V0 => rlpListPayload (rlpNat 0)

/-- types.rs: derived encoding of ExtraData (one-field struct: list of one
byte string). -/
def rlpExtraData (e : ExtraData) : List Nat :=
  rlpListPayload (rlpStr e.inner)

/-- types.rs: derived encoding of Proof (five-field struct, field order:
number, round, block_hash, signature, bitmap). -/
def rlpProofEnc (p : Proof) : List Nat :=
  streamOut (streamAppend (streamAppend (streamAppend (streamAppend
    (streamAppend [] (rlpNat p.number)) (rlpNat p.round))
    (rlpStr p.block_hash)) (rlpStr p.signature)) (rlpStr p.bitmap))

/-- types.rs lines 439-448: Vote::rlp_append — a list of four items: height,
round, vote_type, block_hash. -/
def rlpVote (v : Vote) : List Nat :=
  streamOut (streamAppend (streamAppend (streamAppend
    (streamAppend [] (rlpNat v.height)) (rlpNat v.round))
    (rlpNat v.vote_type)) (rlpStr v.block_hash))

/-- types.rs lines 340-357: Proposal::rlp_append — a list of 13 items:
version, prev_hash, proposer, prev_state_root, transactions_root,
signed_txs_hash, timestamp, number, gas_limit.as_u64(), extra_data (as list),
proof, call_system_script_count, tx_hashes (as list).  base_fee_per_gas and
chain_id are not appended.  U256::as_u64 panics when the value does not fit in
64 bits, modelled by returning none. -/
def rlpProposal (p : Proposal) : Option (List Nat) :=
  if p.gas_limit < 2 ^ 64 then
    some (streamOut
      (streamAppend (streamAppend (streamAppend (streamAppend (streamAppend
      (streamAppend (streamAppend (streamAppend (streamAppend (streamAppend
      (streamAppend (streamAppend (streamAppend [] (rlpVersion p.version))
        (rlpStr p.prev_hash))
        (rlpStr p.proposer))
        (rlpStr p.prev_state_root))
        (rlpStr p.transactions_root))
        (rlpStr p.signed_txs_hash))
        (rlpNat p.timestamp))
        (rlpNat p.number))
        (rlpNat p.gas_limit))
        (rlpSeq rlpExtraData p.extra_data))
        (rlpProofEnc p.proof))
        (rlpNat p.call_system_script_count))
        (rlpSeq rlpStr p.tx_hashes)))
  else none

/-! ## verify_proof (proof.rs) -/

/-- proof.rs line 13: the fixed domain-separation tag. -/
def DST : String := "BLS_SIG_BLS12381G2_XMD:SHA-256_SSWU_RONUL"

/-- DST.as_bytes(): the tag's ASCII bytes. -/
def dstBytes : List Nat := DST.toList.map (fun c => c.toNat)

/-- The blst BLS12-381 library, an external collaborator per specification
section 1, modelled as explicit functions.  Decoded public keys and signatures
are kept as byte lists; decode failure is none (surfaced by proof.rs through
the question-mark operator as the invalid-key / invalid-signature errors of
specification section 7). -/
structure BlsLib where
  pkFromBytes : List Nat → Option (List Nat)
  aggregate : List (List Nat) → Option (List Nat)
  sigFromBytes : List Nat → Option (List Nat)
  verify : List Nat → List Nat → List Nat → List Nat → Bool

/-- bit_vec::BitVec::from_bytes bit order: within each byte the most
significant bit comes first. -/
def byteBits (b : Nat) : List Bool :=
  [b.testBit 7, b.testBit 6, b.testBit 5, b.testBit 4,
   b.testBit 3, b.testBit 2, b.testBit 1, b.testBit 0]

/-- The bit sequence of a bitmap byte array, MSB-first (BitVec::from_bytes). -/
def bitsFromBytes (bm : List Nat) : List Bool :=
  (bm.map byteBits).flatten

/-- proof.rs lines 79-87: the loop of extract_pks over
validator_list.iter().zip(bit_map.iter()); for each set bit the validator's
key is decoded (failing immediately on a bad key) and pushed; returns the
accumulated keys and the count of included validators. -/
def extractLoop (bls : BlsLib) : List (Validator × Bool) → Except Error (List (List Nat) × Nat)
  | [] => .ok ([], 0)
  | (v, bit) :: rest =>
    if bit then
      match bls.pkFromBytes v.pub_key with
      | none => .error .InvalidPublicKey
      | some pk =>
        match extractLoop bls rest with
        | .error e => .error e
        | .ok (pks, count) => .ok (pk :: pks, count + 1)
    else extractLoop bls rest

/-- proof.rs lines 72-94: extract_pks.  The source line 73 reads
    validator_list.sort();
but it is commented out, so the slice is read in caller order and never
written; the second component is the final state of the mutable slice. -/
def extract_pks (bls : BlsLib) (proof : Proof) (validator_list : List Validator) :
    Except Error (List (List Nat)) × List Validator :=
  let bit_map := bitsFromBytes proof.bitmap
  let r : Except Error (List (List Nat)) :=
    match extractLoop bls (validator_list.zip bit_map) with
    | .error e => .error e
    | .ok (pks, count) =>
      if count * 3 ≤ validator_list.length * 2 then .error .NotEnoughSignatures
      else .ok pks
  (r, validator_list)

/-- The number of validators selected by the bitmap: set bits of the
lock-step iteration of proof.rs line 79. -/
def countSelected (validator_list : List Validator) (bitmap : List Nat) : Nat :=
  (validator_list.zip (bitsFromBytes bitmap)).countP (fun p => p.2)

/-- proof.rs lines 26-43: the Proposal record rebuilt from the block header
and the externally supplied previous state root.  (The source literal predates
the version field of types.rs; the header's version completes it.) -/
def mkProposal (block : AxonBlock) (previous_state_root : List Nat) : Proposal :=
  { version := block.header.version
    prev_hash := block.header.prev_hash
    proposer := block.header.proposer
    prev_state_root := previous_state_root
    transactions_root := block.header.transactions_root
    signed_txs_hash := block.header.signed_txs_hash
    timestamp := block.header.timestamp
    number := block.header.number
    gas_limit := block.header.gas_limit
    extra_data := block.header.extra_data
    base_fee_per_gas := block.header.base_fee_per_gas
    proof := block.header.proof
    chain_id := block.header.chain_id
    call_system_script_count := block.header.call_system_script_count
    tx_hashes := block.tx_hashes }

/-- proof.rs lines 49-54: the Vote record rebuilt by the verifier:
height is proof.number, round is proof.round, vote_type is the fixed
precommit tag 2, block_hash is proof.block_hash. -/
def mkVote (proof : Proof) : Vote :=
  { height := proof.number
    round := proof.round
    vote_type := 2
    block_hash := proof.block_hash }

/-- proof.rs lines 20-70: verify_proof.  Returns none when the encoding step
panics (U256::as_u64 on an oversized gas limit); otherwise the verdict paired
with the final state of the caller's validator slice. -/
def verify_proof (bls : BlsLib) (block : AxonBlock) (previous_state_root : List Nat)
    (validator_list : List Validator) (proof : Proof) :
    Option (Except Error Unit × List Validator) :=
  match rlpProposal (mkProposal block previous_state_root) with
  | none => none
  | some raw_proposal =>
    if keccak_256 raw_proposal ≠ proof.block_hash then
      some (.error .InvalidProofBlockHash, validator_list)
    else
      let vote := mkVote proof
      let hash_vote := keccak_256 (rlpVote vote)
      match extract_pks bls proof validator_list with
      | (.error e, vl) => some (.error e, vl)
      | (.ok pks, vl) =>
        match bls.aggregate pks with
        | none => some (.error .InvalidPublicKey, vl)
        | some c_pk =>
          match bls.sigFromBytes proof.signature with
          | none => some (.error .InvalidSignature, vl)
          | some sig =>
            if bls.verify sig hash_vote dstBytes c_pk then some (.ok (), vl)
            else some (.error .InvalidSignature, vl)

/-! ## verify_trie_proof (proof.rs lines 15-18) -/

/-- proof.rs lines 15-18: verify_trie_proof calls the external cita_trie
library (a trusted collaborator per specification section 1, modelled as the
function argument: it returns the optional value for the key, or a structural
error) and discards its result, returning Ok(()).  Library errors surface via
the question-mark operator as the trie-proof error of specification
section 7. -/
def verify_trie_proof
    (cita_trie_verify : List Nat → List Nat → List (List Nat) → Except Unit (Option (List Nat)))
    (root : List Nat) (key : List Nat) (proof : List (List Nat)) : Except Error Unit :=
  match cita_trie_verify root key proof with
  | .error _ => .error .TrieProofError
  | .ok _ => .ok ()

/-! ## Concrete sample inputs -/

def r32 : List Nat := List.replicate 32 0

def r20 : List Nat := List.replicate 20 0

/-- An all-default previous Proof embedded in the sample header. -/
def emptyProof : Proof := ⟨0, 0, r32, [], []⟩

def sampleHeader : AxonHeader :=
  { version := .V0
    prev_hash := r32
    proposer := r20
    state_root := r32
    transactions_root := r32
    signed_txs_hash := r32
    receipts_root := r32
    log_bloom := List.replicate 256 0
    timestamp := 0
    number := 4
    gas_used := 0
    gas_limit := 100
    extra_data := [⟨[0]⟩]
    base_fee_per_gas := 1
    proof := emptyProof
    call_system_script_count := 0
    chain_id := 7 }

def sampleBlock : AxonBlock := ⟨sampleHeader, [r32]⟩

def samplePSR : List Nat := r32

/-- The canonical encoding of the sample block's proposal. -/
def sampleRaw : List Nat := (rlpProposal (mkProposal sampleBlock samplePSR)).getD []

/-- The block hash the verifier recomputes for the sample block. -/
def sampleHash : List Nat := keccak_256 sampleRaw

def vA : Validator := ⟨[1], 1, 1⟩

/-- A validator whose stored key blsStd fails to decode. -/
def vB : Validator := ⟨[9], 1, 1⟩

def vC : Validator := ⟨[2], 1, 1⟩

/-- A sample behaviour of the external BLS library: every key decodes except
the byte string 09; aggregation concatenates; every signature verifies. -/
def blsStd : BlsLib :=
  { pkFromBytes := fun b => if b = [9] then none else some b
    aggregate := fun l => some l.flatten
    sigFromBytes := fun b => some b
    verify := fun _ _ _ _ => true }

/-- A proof whose bitmap selects one validator of two (below quorum), with the
correct recomputed block hash. -/
def prfQuorum1 : Proof := ⟨4, 0, sampleHash, [1], [0x80]⟩

/-- A proof carrying number 5 while the sample block's header number is 4,
with the correct recomputed block hash and a bitmap selecting one validator. -/
def prfSuccess : Proof := ⟨5, 0, sampleHash, [1], [0x80]⟩

instance {e a : Type} [DecidableEq e] [DecidableEq a] : DecidableEq (Except e a)
  | .ok x, .ok y =>
    if h : x = y then .isTrue (by rw [h]) else .isFalse (by intro hh; cases hh; exact h rfl)
  | .ok _, .error _ => .isFalse (by intro hh; cases hh)
  | .error _, .ok _ => .isFalse (by intro hh; cases hh)
  | .error x, .error y =>
    if h : x = y then .isTrue (by rw [h]) else .isFalse (by intro hh; cases hh; exact h rfl)


/-! ## Helper lemmas -/

theorem extract_pks_snd (bls : BlsLib) (prf : Proof) (vl : List Validator) :
    (extract_pks bls prf vl).2 = vl := rfl

theorem extractLoop_length (bls : BlsLib) :
    ∀ (l : List (Validator × Bool)) (pks : List (List Nat)) (count : Nat),
    extractLoop bls l = .ok (pks, count) → pks.length = count
  | [], pks, count => by
    intro h
    simp [extractLoop] at h
    simp [← h.1, ← h.2]
  | (v, bit) :: rest, pks, count => by
    intro h
    cases bit with
    | false =>
      exact extractLoop_length bls rest pks count (by simpa [extractLoop] using h)
    | true =>
      rcases hpk : bls.pkFromBytes v.pub_key with _ | pk
      · simp [extractLoop, hpk] at h
      · rcases hr : extractLoop bls rest with e | ⟨pks', c'⟩
        · simp [extractLoop, hpk, hr] at h
        · have hlen := extractLoop_length bls rest pks' c' hr
          simp [extractLoop, hpk, hr] at h
          simp [← h.1, ← h.2, hlen]

theorem extractLoop_ok_of_dec (bls : BlsLib) :
    ∀ (l : List (Validator × Bool)),
    (∀ p ∈ l, p.2 = true → (bls.pkFromBytes p.1.pub_key).isSome = true) →
    extractLoop bls l =
      .ok (l.filterMap (fun p => if p.2 then bls.pkFromBytes p.1.pub_key else none),
           l.countP (fun p => p.2))
  | [], _ => rfl
  | (v, bit) :: rest, h => by
    have hrest := extractLoop_ok_of_dec bls rest (fun p hp => h p (List.mem_cons_of_mem _ hp))
    cases bit with
    | false =>
      simp [extractLoop, hrest, List.filterMap_cons, List.countP_cons]
    | true =>
      have hv := h (v, true) (List.mem_cons_self _ _) rfl
      obtain ⟨pk, hpk⟩ := Option.isSome_iff_exists.mp hv
      simp [extractLoop, hrest, hpk, List.filterMap_cons, List.countP_cons]

theorem extract_pks_spec (bls : BlsLib) (prf : Proof) (vl : List Validator)
    (hdec : ∀ v ∈ vl, (bls.pkFromBytes v.pub_key).isSome = true) :
    (extract_pks bls prf vl).1 =
      if countSelected vl prf.bitmap * 3 ≤ vl.length * 2 then
        .error .NotEnoughSignatures
      else
        .ok ((vl.zip (bitsFromBytes prf.bitmap)).filterMap
          (fun p => if p.2 then bls.pkFromBytes p.1.pub_key else none)) := by
  have h : ∀ p ∈ vl.zip (bitsFromBytes prf.bitmap), p.2 = true →
      (bls.pkFromBytes p.1.pub_key).isSome = true := by
    intro p hp _
    exact hdec p.1 (List.of_mem_zip hp).1
  simp [extract_pks, extractLoop_ok_of_dec bls _ h, countSelected]

theorem bitsFromBytes_length : ∀ bm : List Nat, (bitsFromBytes bm).length = 8 * bm.length
  | [] => rfl
  | b :: bm => by
    have ih := bitsFromBytes_length bm
    simp [bitsFromBytes, byteBits] at ih ⊢
    omega

theorem bitsFromBytes_getD : ∀ (bm : List Nat) (i : Nat), i < 8 * bm.length →
    (bitsFromBytes bm).getD i false = Nat.testBit (bm.getD (i / 8) 0) (7 - i % 8)
  | [], i, h => by simp at h
  | b :: bm, i, h => by
    by_cases h8 : i < 8
    · interval_cases i <;> simp [bitsFromBytes, byteBits]
    · have hlt : i - 8 < 8 * bm.length := by
        simp [List.length_cons] at h
        omega
      have ih := bitsFromBytes_getD bm (i - 8) hlt
      have hstep : bitsFromBytes (b :: bm) = byteBits b ++ bitsFromBytes bm := by
        simp [bitsFromBytes]
      have hlen : (byteBits b).length = 8 := by simp [byteBits]
      have hmod : (i - 8) % 8 = i % 8 := by omega
      have hdiv : i / 8 = (i - 8) / 8 + 1 := by omega
      rw [hstep, List.getD_append_right (byteBits b) (bitsFromBytes bm) false i
        (by omega), hlen, ih, hmod, hdiv, List.getD_cons_succ]

theorem zip_filterMap_eq_range {α : Type} (f : Validator → Option α) :
    ∀ (vl : List Validator) (bits : List Bool),
    (vl.zip bits).filterMap (fun p => if p.2 then f p.1 else none) =
    (List.range vl.length).filterMap (fun i =>
      if i < bits.length ∧ bits.getD i false = true then f (vl.getD i default) else none)
  | [], bits => by simp
  | v :: vl, [] => by simp
  | v :: vl, b :: bits => by
    have ih := zip_filterMap_eq_range f vl bits
    have hfun : (fun i =>
        if i + 1 < bits.length + 1 ∧ (b :: bits)[i + 1]?.getD false = true
        then f ((v :: vl)[i + 1]?.getD default) else none)
        = (fun i =>
        if i < bits.length ∧ bits[i]?.getD false = true then f (vl[i]?.getD default) else none) := by
      funext i
      simp [Nat.succ_lt_succ_iff]
    cases b <;>
      simp [List.range_succ_eq_map, List.filterMap_cons, List.filterMap_map,
        Function.comp_def, hfun, ih]

/-! ## Claims -/

/-- Claim C3: for every included-participant count k and total validator count
n, the quorum decision is exactly 3*k > 2*n: extraction succeeds (and
verification proceeds past the quorum check) if and only if 3*k > 2*n, and
otherwise fails with NotEnoughSignatures.  In particular for n = 3 quorum
requires k = 3, and for n = 4 quorum is reached at k = 3. -/
theorem c3_quorum_threshold (bls : BlsLib) (prf : Proof) (vl : List Validator)
    (hdec : ∀ v ∈ vl, (bls.pkFromBytes v.pub_key).isSome = true) :
    ((∃ pks, (extract_pks bls prf vl).1 = .ok pks) ↔
      3 * countSelected vl prf.bitmap > 2 * vl.length) ∧
    ((extract_pks bls prf vl).1 = .error .NotEnoughSignatures ↔
      3 * countSelected vl prf.bitmap ≤ 2 * vl.length) := by
  rw [extract_pks_spec bls prf vl hdec]
  by_cases hq : countSelected vl prf.bitmap * 3 ≤ vl.length * 2
  · simp [hq]
    omega
  · simp [hq]
    omega

/-- Witness for C3 at a concrete roster of two validators with one selected. -/
theorem c3_quorum_threshold_witness :
    ((∃ pks, (extract_pks blsStd prfQuorum1 [vA, vC]).1 = .ok pks) ↔
      3 * countSelected [vA, vC] prfQuorum1.bitmap > 2 * ([vA, vC] : List Validator).length) ∧
    ((extract_pks blsStd prfQuorum1 [vA, vC]).1 = .error .NotEnoughSignatures ↔
      3 * countSelected [vA, vC] prfQuorum1.bitmap ≤ 2 * ([vA, vC] : List Validator).length) :=
  c3_quorum_threshold blsStd prfQuorum1 [vA, vC] (by decide)

/-- Claim C9: whenever extraction succeeds (so verify_proof reaches public-key
aggregation), the extracted key list is non-empty, because the quorum check
3*count > 2*total forces count ≥ 1. -/
theorem c9_pks_nonempty (bls : BlsLib) (prf : Proof) (vl : List Validator)
    (pks : List (List Nat)) (h : (extract_pks bls prf vl).1 = .ok pks) :
    pks ≠ [] := by
  rcases hr : extractLoop bls (vl.zip (bitsFromBytes prf.bitmap)) with e | ⟨pks', count⟩
  · simp [extract_pks, hr] at h
  · have hlen := extractLoop_length bls _ pks' count hr
    by_cases hq : count * 3 ≤ vl.length * 2
    · simp [extract_pks, hr, hq] at h
    · simp [extract_pks, hr, hq] at h
      intro hnil
      rw [h, hnil] at hlen
      simp at hlen
      omega

/-- Witness for C9 at a concrete input reaching aggregation. -/
theorem c9_pks_nonempty_witness : ([[1]] : List (List Nat)) ≠ [] :=
  c9_pks_nonempty blsStd prfSuccess [vA] [[1]] (by decide)

/-- Claim C10: verify_proof never modifies the validator list it receives:
whenever the call returns, the final state of the caller's (mutably borrowed)
validator slice is the input list, regardless of outcome. -/
theorem c10_validator_list_unchanged (bls : BlsLib) (block : AxonBlock)
    (previous_state_root : List Nat) (vl : List Validator) (prf : Proof)
    (res : Except Error Unit) (vl' : List Validator)
    (h : verify_proof bls block previous_state_root vl prf = some (res, vl')) :
    vl' = vl := by
  unfold verify_proof at h
  rcases hp : rlpProposal (mkProposal block previous_state_root) with _ | raw <;>
    rw [hp] at h
  · simp at h
  · dsimp only at h
    by_cases hh : keccak_256 raw ≠ prf.block_hash
    · rw [if_pos hh] at h
      simp at h
      exact h.2.symm
    · rw [if_neg hh] at h
      rcases hx : extract_pks bls prf vl with ⟨r, vlx⟩
      have hvlx : vlx = vl := by
        have := extract_pks_snd bls prf vl
        rw [hx] at this
        exact this
      rw [hx] at h
      rcases r with e | pks
      · simp at h
        rw [← h.2, hvlx]
      · dsimp only at h
        rcases ha : bls.aggregate pks with _ | c_pk <;> rw [ha] at h
        · simp at h
          rw [← h.2, hvlx]
        · dsimp only at h
          rcases hs : bls.sigFromBytes prf.signature with _ | sig <;> rw [hs] at h
          · simp at h
            rw [← h.2, hvlx]
          · dsimp only at h
            by_cases hv : bls.verify sig (keccak_256 (rlpVote (mkVote prf))) dstBytes c_pk = true
            · rw [if_pos hv] at h
              simp at h
              rw [← h.2, hvlx]
            · rw [if_neg hv] at h
              simp at h
              rw [← h.2, hvlx]

/-- Witness for C10 at a concrete accepting run. -/
theorem c10_validator_list_unchanged_witness : ([vA] : List Validator) = [vA] :=
  c10_validator_list_unchanged blsStd sampleBlock samplePSR [vA] prfSuccess
    (.ok ()) [vA] (by decide)

/-- A block whose 256-bit gas limit does not fit in 64 bits. -/
def blkBig : AxonBlock := ⟨{ sampleHeader with gas_limit := 2 ^ 64 }, [r32]⟩

/-- Counterexample to claim C8 as stated: for gas_limit = 2^64 the canonical
encoding step itself fails (U256::as_u64 panics), before any digest
comparison. -/
theorem c8_counterexample :
    rlpProposal (mkProposal blkBig samplePSR) = none ∧
    verify_proof blsStd blkBig samplePSR [vA] prfSuccess = none := by
  constructor
  · rfl
  · rfl

/-- Claim C8 (amended): canonical encoding of a well-typed in-memory
BlockProposal is total for every gas-limit value below 2^64 — and then
verify_proof always returns a verdict, so the only failure of the
encode-and-hash step is the digest comparison afterward; for gas limits of 64
bits or more the encode step itself panics. -/
theorem c8_encoding_total (bls : BlsLib) (block : AxonBlock) (psr : List Nat)
    (vl : List Validator) (prf : Proof) (h : block.header.gas_limit < 2 ^ 64) :
    (verify_proof bls block psr vl prf).isSome = true := by
  unfold verify_proof
  rcases hp : rlpProposal (mkProposal block psr) with _ | raw
  · exfalso
    unfold rlpProposal at hp
    rw [if_pos (show (mkProposal block psr).gas_limit < 2 ^ 64 from h)] at hp
    simp at hp
  · dsimp only
    split
    · simp
    · rcases extract_pks bls prf vl with ⟨r, vlx⟩
      rcases r with e | pks
      · simp
      · dsimp only
        rcases bls.aggregate pks with _ | c_pk
        · simp
        · dsimp only
          rcases bls.sigFromBytes prf.signature with _ | sig
          · simp
          · dsimp only
            split <;> simp

/-- Witness for C8 (amended) at a concrete block. -/
theorem c8_encoding_total_witness :
    (verify_proof blsStd sampleBlock samplePSR [vA] prfSuccess).isSome = true :=
  c8_encoding_total blsStd sampleBlock samplePSR [vA] prfSuccess (by decide)

/-- The Proposal the verifier rebuilds for the sample block. -/
def propBase : Proposal := mkProposal sampleBlock samplePSR

/-- The same Proposal with a different base fee and chain id. -/
def propOther : Proposal := { propBase with base_fee_per_gas := 99, chain_id := 999 }

/-- Counterexample to claim C2 as stated: two proposals that differ in the
base fee and in the chain id have identical canonical encodings — the
encoding does not commit to those two fields. -/
theorem c2_counterexample :
    rlpProposal propBase = rlpProposal propOther ∧
    propBase.base_fee_per_gas ≠ propOther.base_fee_per_gas ∧
    propBase.chain_id ≠ propOther.chain_id := by
  refine ⟨rfl, by decide, by decide⟩

/-- Claim C2 (amended): the canonical encoding of a BlockProposal is the RLP
list of exactly 13 items in the fixed order: version tag, predecessor hash,
proposer address, previous state root, transactions root, signed-transactions
hash, timestamp, block number, gas limit (as a 64-bit value), extra-data
segments, the embedded previous Proof, count of system-script calls, and the
list of transaction hashes; the base fee and the chain id are not part of the
encoding, so the encoding is invariant under changing them. -/
theorem c2_committed_fields (p : Proposal) (h : p.gas_limit < 2 ^ 64) :
    rlpProposal p = some (rlpListPayload
      (rlpVersion p.version ++ rlpStr p.prev_hash ++ rlpStr p.proposer ++
       rlpStr p.prev_state_root ++ rlpStr p.transactions_root ++
       rlpStr p.signed_txs_hash ++ rlpNat p.timestamp ++ rlpNat p.number ++
       rlpNat p.gas_limit ++ rlpSeq rlpExtraData p.extra_data ++
       rlpProofEnc p.proof ++ rlpNat p.call_system_script_count ++
       rlpSeq rlpStr p.tx_hashes)) ∧
    ∀ bf ci, rlpProposal { p with base_fee_per_gas := bf, chain_id := ci } = rlpProposal p := by
  constructor
  · rw [rlpProposal, if_pos h]
    simp [streamOut, streamAppend, List.append_assoc]
  · intro bf ci
    rfl

/-- Witness for C2 (amended) at the sample proposal. -/
theorem c2_committed_fields_witness :
    (rlpProposal propBase = some (rlpListPayload
      (rlpVersion propBase.version ++ rlpStr propBase.prev_hash ++
       rlpStr propBase.proposer ++ rlpStr propBase.prev_state_root ++
       rlpStr propBase.transactions_root ++ rlpStr propBase.signed_txs_hash ++
       rlpNat propBase.timestamp ++ rlpNat propBase.number ++
       rlpNat propBase.gas_limit ++ rlpSeq rlpExtraData propBase.extra_data ++
       rlpProofEnc propBase.proof ++ rlpNat propBase.call_system_script_count ++
       rlpSeq rlpStr propBase.tx_hashes)) ∧
    ∀ bf ci, rlpProposal { propBase with base_fee_per_gas := bf, chain_id := ci } =
      rlpProposal propBase) :=
  c2_committed_fields propBase (by decide)

/-- Claim C6 (code bug): verify_trie_proof returns Result<(), Error> and
discards the value returned by the trie library, so a present key and a
provably absent key produce the same Ok(()) outcome — the three-way contract
(present with value, provably absent, malformed proof) claimed by the spec and
relied on by examples/verify_trie_proof.rs is not provided; only the
malformed-proof error is distinguished. -/
theorem c6_trie_outcomes_collapsed :
    verify_trie_proof (fun _ _ _ => .ok (some [42])) r32 [0] [[1]] = .ok () ∧
    verify_trie_proof (fun _ _ _ => .ok none) r32 [0] [[1]] = .ok () ∧
    verify_trie_proof (fun _ _ _ => .error ()) r32 [0] [[1]] = .error .TrieProofError :=
  ⟨rfl, rfl, rfl⟩

/-- Claim C1 (code bug): the sort of the validator list (proof.rs line 73:
`// validator_list.sort();`) is commented out, so the Selector indexes the
bitmap against the caller-supplied order, and permuting the validator list
changes the outcome of verify_proof: with the same block and proof (the hash
check passes for both calls), the orders [vA, vB] and [vB, vA] produce
different verdicts. -/
theorem c1_permutation_changes_outcome :
    (verify_proof blsStd sampleBlock samplePSR [vA, vB] prfQuorum1).map Prod.fst =
      some (.error .NotEnoughSignatures) ∧
    (verify_proof blsStd sampleBlock samplePSR [vB, vA] prfQuorum1).map Prod.fst =
      some (.error .InvalidPublicKey) := by
  refine ⟨by decide, by decide⟩

/-- Claim C4: the quorum check is evaluated strictly before any signature
aggregation or verification: whenever the hash check passes, every selected
key decodes, and the selected count is at or below the two-thirds threshold,
verify_proof returns NotEnoughSignatures — for every possible behaviour of
the BLS library, in particular even when its verify always succeeds, so the
aggregate-signature verification is never reached. -/
theorem c4_quorum_before_signature (bls : BlsLib) (block : AxonBlock)
    (psr : List Nat) (vl : List Validator) (prf : Proof) (raw : List Nat)
    (h1 : rlpProposal (mkProposal block psr) = some raw)
    (h2 : keccak_256 raw = prf.block_hash)
    (hdec : ∀ v ∈ vl, (bls.pkFromBytes v.pub_key).isSome = true)
    (hq : 3 * countSelected vl prf.bitmap ≤ 2 * vl.length) :
    verify_proof bls block psr vl prf = some (.error .NotEnoughSignatures, vl) := by
  have hx : (extract_pks bls prf vl).1 = .error .NotEnoughSignatures := by
    rw [extract_pks_spec bls prf vl hdec, if_pos (by omega)]
  have hpair : extract_pks bls prf vl = (.error .NotEnoughSignatures, vl) :=
    Prod.ext hx (extract_pks_snd bls prf vl)
  unfold verify_proof
  rw [h1]
  dsimp only
  rw [if_neg (not_ne_iff.mpr h2), hpair]

/-- Witness for C4 at a concrete roster of two validators with one selected,
under a BLS behaviour whose verify always succeeds. -/
theorem c4_quorum_before_signature_witness :
    verify_proof blsStd sampleBlock samplePSR [vA, vC] prfQuorum1 =
      some (.error .NotEnoughSignatures, [vA, vC]) :=
  c4_quorum_before_signature blsStd sampleBlock samplePSR [vA, vC] prfQuorum1
    sampleRaw rfl rfl (by decide) (by decide)

/-- Claim C7: the Selector includes validator index i exactly when i is within
the bitmap's bit length, bit i of the bitmap (bit 7 - i%8 of byte i/8,
MSB-first) is set, and i is within the validator list; a bitmap shorter in
bits than the validator list is not an error — the only possible extraction
failure besides a bad key is the quorum policy's NotEnoughSignatures. -/
theorem c7_bitmap_selection (bls : BlsLib) (number round : Nat)
    (bh sg bm : List Nat) (vl : List Validator)
    (hdec : ∀ v ∈ vl, (bls.pkFromBytes v.pub_key).isSome = true) :
    (extract_pks bls ⟨number, round, bh, sg, bm⟩ vl).1 = .error .NotEnoughSignatures ∨
    (extract_pks bls ⟨number, round, bh, sg, bm⟩ vl).1 =
      .ok ((List.range vl.length).filterMap (fun i =>
        if i < 8 * bm.length ∧ Nat.testBit (bm.getD (i / 8) 0) (7 - i % 8) = true
        then bls.pkFromBytes (vl.getD i default).pub_key else none)) := by
  rw [extract_pks_spec bls _ vl hdec]
  by_cases hq :
      countSelected vl (Proof.mk number round bh sg bm).bitmap * 3 ≤ vl.length * 2
  · left
    rw [if_pos hq]
  · right
    rw [if_neg hq]
    have hzip := zip_filterMap_eq_range (fun v => bls.pkFromBytes v.pub_key) vl
      (bitsFromBytes bm)
    have hfun : (fun i =>
        if i < (bitsFromBytes bm).length ∧ (bitsFromBytes bm).getD i false = true
        then bls.pkFromBytes (vl.getD i default).pub_key else none)
        = (fun i =>
        if i < 8 * bm.length ∧ Nat.testBit (bm.getD (i / 8) 0) (7 - i % 8) = true
        then bls.pkFromBytes (vl.getD i default).pub_key else none) := by
      funext i
      by_cases h8 : i < 8 * bm.length
      · rw [bitsFromBytes_getD bm i h8]
        simp [bitsFromBytes_length, h8]
      · simp [bitsFromBytes_length, h8]
    rw [show (Proof.mk number round bh sg bm).bitmap = bm from rfl, hzip, ← hfun]

/-- Witness for C7 at a concrete one-validator roster and one-byte bitmap. -/
theorem c7_bitmap_selection_witness :
    (extract_pks blsStd ⟨5, 0, sampleHash, [1], [0x80]⟩ [vA]).1 =
      .error .NotEnoughSignatures ∨
    (extract_pks blsStd ⟨5, 0, sampleHash, [1], [0x80]⟩ [vA]).1 =
      .ok ((List.range ([vA] : List Validator).length).filterMap (fun i =>
        if i < 8 * ([0x80] : List Nat).length ∧
          Nat.testBit (([0x80] : List Nat).getD (i / 8) 0) (7 - i % 8) = true
        then blsStd.pkFromBytes (([vA] : List Validator).getD i default).pub_key
        else none)) :=
  c7_bitmap_selection blsStd 5 0 sampleHash [1] [0x80] [vA] (by decide)

/-- Counterexample to claim C5 as stated: a run in which the hash check, the
quorum check and the whole verification succeed while the proof's number
field (5) differs from the block's header number (4); the Vote the verifier
rebuilds carries height 5 = proof.number, not block.number = 4. -/
theorem c5_counterexample :
    keccak_256 sampleRaw = prfSuccess.block_hash ∧
    (extract_pks blsStd prfSuccess [vA]).1 = .ok [[1]] ∧
    verify_proof blsStd sampleBlock samplePSR [vA] prfSuccess = some (.ok (), [vA]) ∧
    prfSuccess.number ≠ sampleBlock.header.number ∧
    mkVote prfSuccess ≠
      (⟨sampleBlock.header.number, prfSuccess.round, 2, prfSuccess.block_hash⟩ : Vote) ∧
    mkVote prfSuccess =
      (⟨prfSuccess.number, prfSuccess.round, 2, prfSuccess.block_hash⟩ : Vote) :=
  ⟨rfl, by decide, by decide, by decide, by decide, rfl⟩

/-- Claim C5 (amended): after the hash and quorum checks pass, verify_proof
rebuilds the Vote as (height = proof.number — the height stated by the proof
itself, not block.number —, round = proof.round, vote_type = the fixed
precommit tag 2, block_hash = proof.block_hash), and the digest the aggregate
signature must cover is the 32-byte hash of this Vote's canonical encoding:
once the signature stage is reached, verification succeeds exactly when the
library verifies proof.signature over that digest under the fixed DST. -/
theorem c5_vote_and_digest (bls : BlsLib) (block : AxonBlock) (psr : List Nat)
    (vl : List Validator) (prf : Proof) (raw : List Nat) (pks : List (List Nat))
    (c_pk sig : List Nat)
    (h1 : rlpProposal (mkProposal block psr) = some raw)
    (h2 : keccak_256 raw = prf.block_hash)
    (h3 : (extract_pks bls prf vl).1 = .ok pks)
    (h4 : bls.aggregate pks = some c_pk)
    (h5 : bls.sigFromBytes prf.signature = some sig) :
    mkVote prf = (⟨prf.number, prf.round, 2, prf.block_hash⟩ : Vote) ∧
    (keccak_256 (rlpVote (mkVote prf))).length = 32 ∧
    (verify_proof bls block psr vl prf = some (.ok (), vl) ↔
      bls.verify sig (keccak_256 (rlpVote (mkVote prf))) dstBytes c_pk = true) := by
  refine ⟨rfl, by simp [keccak_256], ?_⟩
  have hpair : extract_pks bls prf vl = (.ok pks, vl) :=
    Prod.ext h3 (extract_pks_snd bls prf vl)
  unfold verify_proof
  rw [h1]
  dsimp only
  rw [if_neg (not_ne_iff.mpr h2), hpair]
  dsimp only
  rw [h4]
  dsimp only
  rw [h5]
  dsimp only
  by_cases hv : bls.verify sig (keccak_256 (rlpVote (mkVote prf))) dstBytes c_pk = true
  · rw [if_pos hv]
    simp [hv]
  · rw [if_neg hv]
    simp [hv]

/-- Witness for C5 (amended) at a concrete accepting run. -/
theorem c5_vote_and_digest_witness :
    mkVote prfSuccess =
      (⟨prfSuccess.number, prfSuccess.round, 2, prfSuccess.block_hash⟩ : Vote) ∧
    (keccak_256 (rlpVote (mkVote prfSuccess))).length = 32 ∧
    (verify_proof blsStd sampleBlock samplePSR [vA] prfSuccess = some (.ok (), [vA]) ↔
      blsStd.verify [1] (keccak_256 (rlpVote (mkVote prfSuccess))) dstBytes [1] = true) :=
  c5_vote_and_digest blsStd sampleBlock samplePSR [vA] prfSuccess sampleRaw [[1]]
    [1] [1] rfl rfl (by decide) rfl rfl
